import Mathlib

/-!
Verification of the crypto-whatsup briefing pipeline.

Shallow embedding of the TypeScript sources:
  - src/lib/sentimentStorage.ts  (deriveSentimentFromConclusion)
  - src/lib/cache.ts             (getCachedWhatsUp / setCachedWhatsUp)
  - src/lib/grok.ts              (fetchCryptoIntelFromGrok and the gated
                                  /api/whatsup GET route bundled in the same file)
  - src/lib/twitter-api.ts       (fetchCryptoTweets)
  - src/lib/openai.ts            (generateWhatsUp)
  - src/lib/claude.ts            (fetchWithRetry)
  - src/lib/telegram/commands/prices.ts (getTopMovers and the coingecko helpers)
  - src/app/api/whatsup/followup/route.ts (POST handler)
  - the prices route (src/unnamed/part_006)

Conventions of the embedding:
  - JavaScript timestamps (Date values, Date.now()) are Nat milliseconds.
  - JavaScript numbers used only through comparisons and arithmetic on
    decimal percentages are modelled as Rat.
  - Optional / possibly-undefined strings are Option String; the JavaScript
    falsiness test `!s` is `strFalsy` (undefined or empty string).
  - `Array.prototype.sort` with comparator (a, b) => key b - key a is a
    stable descending sort; it is modelled by List.insertionSort with the
    reflexive total relation (key b ≤ key a), which computes the same
    (unique) stable descending reordering.
  - fetch results are an explicit FetchOutcome input; string formatting
    that only feeds prompts or display strings is not modelled.
-/

namespace CryptoWhatsup

/-! ## Generic string helpers (JS String.prototype semantics) -/

/-- JS `toLowerCase`, on the character data of a string (ASCII-adequate). -/
def lowerData (s : String) : List Char := s.data.map Char.toLower

/-- JS `toUpperCase`, on the character data of a string. -/
def upperData (s : String) : List Char := s.data.map Char.toUpper

/-- Does `h` start with `n`? (helper for the substring scan). -/
def startsWithL : List Char → List Char → Bool
  | _, [] => true
  | [], _ :: _ => false
  | c :: cs, d :: ds => c == d && startsWithL cs ds

/-- JS `String.prototype.includes`: does `h` contain `n` as a contiguous run? -/
def containsSub : List Char → List Char → Bool
  | [], n => n.isEmpty
  | c :: cs, n => startsWithL (c :: cs) n || containsSub cs n

/-- `conclusionLower.includes(pat)` with `pat` a string literal. -/
def includesL (h : List Char) (pat : String) : Bool :=
  containsSub h pat.data

/-- JS falsiness of an optional string: `undefined` and the empty string. -/
def strFalsy : Option String → Bool
  | none => true
  | some s => s == ""

/-! ## Sentiment derivation — src/lib/sentimentStorage.ts lines 11-43 -/

inductive Sentiment
  | bullish
  | bearish
  | neutral
deriving DecidableEq, Repr

/-- `deriveSentimentFromConclusion(conclusion, fallbackSentiment)`:
the displayed sentiment is re-derived from the conclusion text by keyword
matching, falling back to the given sentiment when the conclusion is
undefined or empty (JS `if (!conclusion) return fallbackSentiment`). -/
def deriveSentimentFromConclusion (conclusion : Option String)
    (fallbackSentiment : Sentiment) : Sentiment :=
  if strFalsy conclusion then fallbackSentiment
  else
    let cl := lowerData (conclusion.getD "")
    if includesL cl "leaning bearish" || includesL cl "bearish short" ||
        includesL cl "bearish medium" || includesL cl "bearish long" ||
        includesL cl "strongly bearish" ||
        (includesL cl "bearish" && !includesL cl "not bearish") then
      Sentiment.bearish
    else if includesL cl "leaning bullish" || includesL cl "bullish short" ||
        includesL cl "bullish medium" || includesL cl "bullish long" ||
        includesL cl "strongly bullish" ||
        (includesL cl "bullish" && !includesL cl "not bullish") then
      Sentiment.bullish
    else
      Sentiment.neutral

/-! ## Cache layer — src/lib/cache.ts -/

/-- `CachedWhatsUp`: the briefing with its creation time and expiry
(ISO date strings in the source, Nat milliseconds here). -/
structure CachedEntry (α : Type) where
  data : α
  timestamp : Nat
  expiresAt : Nat
deriving DecidableEq, Repr

/-- 24 hours in milliseconds (`CACHE_DURATION_MS`). -/
def CACHE_DURATION_MS : Nat := 24 * 60 * 60 * 1000

/-- The two cache tiers: the in-process memory slot and the durable file
slot.  `file = none` models a missing, unreadable or unparsable cache file
(all collapse to the same catch branch in the source). -/
structure CacheState (α : Type) where
  memory : Option (CachedEntry α)
  file : Option (CachedEntry α)
deriving DecidableEq, Repr

/-- The file-tier half of `getCachedWhatsUp`: read the file, and when the
entry is still valid promote it into the memory tier. -/
def readFileCache {α : Type} (now : Nat) (s : CacheState α) :
    Option (CachedEntry α) × CacheState α :=
  match s.file with
  | some c => if now < c.expiresAt then (some c, { s with memory := some c }) else (none, s)
  | none => (none, s)

/-- `getCachedWhatsUp()`: memory tier first (valid iff `now < expiresAt`),
then the file tier with promotion; absent otherwise. -/
def getCachedWhatsUp {α : Type} (now : Nat) (s : CacheState α) :
    Option (CachedEntry α) × CacheState α :=
  match s.memory with
  | some m => if now < m.expiresAt then (some m, s) else readFileCache now s
  | none => readFileCache now s

/-- `setCachedWhatsUp(data)`: build the entry with
`expiresAt = now + CACHE_DURATION_MS`, always update memory, and update the
file tier when the write succeeds (`writeOk`; a failed write is swallowed). -/
def setCachedWhatsUp {α : Type} (now : Nat) (data : α) (writeOk : Bool)
    (s : CacheState α) : CacheState α :=
  let cached : CachedEntry α := ⟨data, now, now + CACHE_DURATION_MS⟩
  { memory := some cached, file := if writeOk then some cached else s.file }

/-! ## Cost Governor state -/

/-- Modelled from the spec: `lib/rateLimit.ts` is referenced by the whatsup
route (src/lib/grok.ts, second document) but its source is not under src/;
only its callers and the repository documentation (FORET.md, spec 4.7) are.
Per-client fixed-window entry: request count plus window reset time. -/
structure RateEntry where
  count : Nat
  resetTime : Nat
deriving DecidableEq, Repr

/-- Association list from client IP to its rate-limit entry
(the in-memory `limits` map). -/
def RateState := List (String × RateEntry)

instance : DecidableEq RateState := by
  unfold RateState
  infer_instance

/-- 60 second window (spec 4.7, FORET.md snippet: `now + 60000`). -/
def RATE_WINDOW_MS : Nat := 60000

/-- 10 requests per window (spec 4.7, FORET.md snippet: `entry.count >= 10`). -/
def RATE_CAP : Nat := 10

/-- Look up an IP in the rate map. -/
def rateLookup (ip : String) : List (String × RateEntry) → Option RateEntry
  | [] => none
  | (k, v) :: rest => if k == ip then some v else rateLookup ip rest

/-- Replace (or insert) an IP's entry in the rate map. -/
def rateSet (ip : String) (e : RateEntry) : List (String × RateEntry) →
    List (String × RateEntry)
  | [] => [(ip, e)]
  | (k, v) :: rest =>
    if k == ip then (ip, e) :: rest else (k, v) :: rateSet ip e rest

/-- Modelled from the spec: `checkRateLimit` of the missing `lib/rateLimit.ts`
(spec 4.7 and the FORET.md snippet).  Fixed window: a fresh or elapsed window
restarts with count 1; within the window the request is rejected once the cap
is reached, otherwise counted.  Returns (allowed, resetTime, new state). -/
def checkRateLimit (now : Nat) (ip : String) (s : RateState) :
    Bool × Nat × RateState :=
  match rateLookup ip s with
  | none => (true, now + RATE_WINDOW_MS, rateSet ip ⟨1, now + RATE_WINDOW_MS⟩ s)
  | some e =>
    if e.resetTime < now then
      (true, now + RATE_WINDOW_MS, rateSet ip ⟨1, now + RATE_WINDOW_MS⟩ s)
    else if RATE_CAP ≤ e.count then
      (false, e.resetTime, s)
    else
      (true, e.resetTime, rateSet ip ⟨e.count + 1, e.resetTime⟩ s)

/-- Modelled from the spec: the global daily budget counter of the missing
`lib/dailyBudget.ts` (spec 4.7, FORET.md: default cap 200, resets at UTC
midnight, in-memory). -/
structure BudgetState where
  count : Nat
  resetAt : Nat
deriving DecidableEq, Repr

/-- Default daily cap (FORET.md: 200 API-costing requests per day). -/
def DAILY_BUDGET_CAP : Nat := 200

/-- The next UTC midnight after `now` (in milliseconds). -/
def nextUtcMidnight (now : Nat) : Nat :=
  now - now % 86400000 + 86400000

/-- Modelled from the spec: `checkDailyBudget` — lazily reset the counter
once the stored reset time has passed, then allow iff the counter is below
the cap.  The check itself does not consume budget. -/
def checkDailyBudget (now : Nat) (s : BudgetState) : Bool × BudgetState :=
  let s1 := if s.resetAt ≤ now then BudgetState.mk 0 (nextUtcMidnight now) else s
  (s1.count < DAILY_BUDGET_CAP, s1)

/-- Modelled from the spec: `incrementDailyBudget` — one unit per actual
upstream-AI-costing call. -/
def incrementDailyBudget (s : BudgetState) : BudgetState :=
  ⟨s.count + 1, s.resetAt⟩

/-! ## The gated whatsup GET route — src/lib/grok.ts lines 255-361
(second document in the file: `/api/whatsup` with rate limit, force-refresh
cooldown, and daily budget). -/

/-- 10 minute force-refresh cooldown per IP (`REFRESH_COOLDOWN_MS`). -/
def REFRESH_COOLDOWN_MS : Nat := 10 * 60 * 1000

/-- Look up an IP's last force refresh time (`refreshCooldowns.get(ip) || 0`). -/
def cooldownGet (ip : String) : List (String × Nat) → Nat
  | [] => 0
  | (k, v) :: rest => if k == ip then v else cooldownGet ip rest

/-- Record an IP's force refresh time (`refreshCooldowns.set(ip, Date.now())`). -/
def cooldownSet (ip : String) (t : Nat) : List (String × Nat) →
    List (String × Nat)
  | [] => [(ip, t)]
  | (k, v) :: rest =>
    if k == ip then (ip, t) :: rest else (k, v) :: cooldownSet ip t rest

/-- The request as the route reads it: client IP (from forwarded headers),
the `refresh=true` query flag, and the optional `token` query value. -/
structure WhatsUpReq where
  ip : String
  refreshRequested : Bool
  token : Option String
deriving DecidableEq, Repr

/-- Ambient inputs of one route invocation: the configured admin bypass
token, the clock, the outcome of `generateWhatsUp()` (which either returns a
briefing or throws), and whether the cache-file write would succeed. -/
structure RouteEnv (α : Type) where
  adminToken : Option String
  now : Nat
  synth : Except Unit α
  fileWriteOk : Bool

/-- The mutable module state the route touches: rate-limit map, force-refresh
cooldown map, daily budget counter, and the two-tier cache. -/
structure RouteState (α : Type) where
  rate : RateState
  cooldowns : List (String × Nat)
  budget : BudgetState
  cache : CacheState α

/-- The five observable responses of the route: 429 rate-limited (with the
reset time used for the Retry-After hint), a cached payload, 429 budget
exhausted, a fresh payload, and the 500 catch-all. -/
inductive RouteResp (α : Type)
  | rateLimited (resetTime : Nat)
  | cacheHit (entry : CachedEntry α)
  | budgetExceeded
  | fresh (data : α)
  | serverError
deriving DecidableEq, Repr

/-- The cache-miss tail of the route: budget check, synthesis, increment,
cache write (`grok.ts` lines 334-353). -/
def whatsupMiss {α : Type} (env : RouteEnv α) (s : RouteState α) :
    RouteResp α × RouteState α :=
  let chk := checkDailyBudget env.now s.budget
  let s1 : RouteState α := { s with budget := chk.2 }
  if !chk.1 then (RouteResp.budgetExceeded, s1)
  else
    match env.synth with
    | Except.error _ => (RouteResp.serverError, s1)
    | Except.ok data =>
      let s2 : RouteState α := { s1 with budget := incrementDailyBudget s1.budget }
      let s3 : RouteState α :=
        { s2 with cache := setCachedWhatsUp env.now data env.fileWriteOk s2.cache }
      (RouteResp.fresh data, s3)

/-- `!!(adminBypassToken && token === adminBypassToken)` (lines 304-306):
admin only when the configured token is a non-empty string and the query
token matches it. -/
def isAdminReq {α : Type} (req : WhatsUpReq) (env : RouteEnv α) : Bool :=
  match env.adminToken with
  | none => false
  | some t => !(t == "") && req.token == some t

/-- `Date.now() - lastRefresh >= REFRESH_COOLDOWN_MS` (line 311). -/
def cooldownPassed {α : Type} (req : WhatsUpReq) (env : RouteEnv α)
    (cds : List (String × Nat)) : Bool :=
  decide (REFRESH_COOLDOWN_MS ≤ env.now - cooldownGet req.ip cds)

/-- `GET /api/whatsup` (grok.ts lines 274-361): rate limit first, then the
force-refresh cooldown (admin token bypasses it), then the cache unless a
force refresh was granted, and only on the miss path the daily budget gate
followed by synthesis. -/
def whatsupGET {α : Type} (req : WhatsUpReq) (env : RouteEnv α)
    (s : RouteState α) : RouteResp α × RouteState α :=
  let rl := checkRateLimit env.now req.ip s.rate
  let s1 : RouteState α := { s with rate := rl.2.2 }
  if !rl.1 then (RouteResp.rateLimited rl.2.1, s1)
  else
    let forceRefresh : Bool :=
      req.refreshRequested &&
        (isAdminReq req env || cooldownPassed req env s1.cooldowns)
    let s2 : RouteState α :=
      if req.refreshRequested && !isAdminReq req env &&
          cooldownPassed req env s1.cooldowns then
        { s1 with cooldowns := cooldownSet req.ip env.now s1.cooldowns }
      else s1
    if !forceRefresh then
      let rd := getCachedWhatsUp env.now s2.cache
      let s3 : RouteState α := { s2 with cache := rd.2 }
      match rd.1 with
      | some c => (RouteResp.cacheHit c, s3)
      | none => whatsupMiss env s3
    else whatsupMiss env s2

/-! ## Coin data and top movers — src/lib/telegram/commands/prices.ts
(second document: the coingecko module with fetchTop100Coins /
fetchTop300Coins / getTopMovers) and the prices route (src/unnamed/part_006). -/

/-- `CoinData` as returned by the price provider; numeric fields that the
claims touch are kept, percentages as rationals. -/
structure Coin where
  id : String
  symbol : String
  name : String
  image : String
  current_price : Rat
  price_change_percentage_24h : Rat
deriving DecidableEq, Repr

/-- Descending order on 24h change: `a` may come before `b`.  The stable
descending sort of the source (`sort((a, b) => b.change - a.change)`) is the
insertion sort under this reflexive total relation. -/
def changeDesc (a b : Coin) : Prop :=
  b.price_change_percentage_24h ≤ a.price_change_percentage_24h

instance : DecidableRel changeDesc := fun a b =>
  inferInstanceAs
    (Decidable (b.price_change_percentage_24h ≤ a.price_change_percentage_24h))

instance : IsTotal Coin changeDesc :=
  ⟨fun a b => le_total b.price_change_percentage_24h a.price_change_percentage_24h⟩

instance : IsTrans Coin changeDesc :=
  ⟨fun _ _ _ hab hbc => le_trans hbc hab⟩

/-- `[...coins].sort((a, b) => b.price_change_percentage_24h - a.price_change_percentage_24h)`. -/
def sortByChangeDesc (coins : List Coin) : List Coin :=
  List.insertionSort changeDesc coins

/-- JS `slice(-n)`: the last `n` elements (the whole list when shorter). -/
def takeLast {β : Type} (n : Nat) (l : List β) : List β :=
  l.drop (l.length - n)

/-- The coin selection of `getTopMovers` before the display mapping:
gainers = first 5 of the positive-change coins of the descending sort,
losers = last 5 of the negative-change coins, reversed (worst first). -/
def getTopMoversCoins (coins : List Coin) : List Coin × List Coin :=
  let sorted := sortByChangeDesc coins
  (((sorted.filter (fun c => 0 < c.price_change_percentage_24h)).take 5),
   (takeLast 5 (sorted.filter (fun c => c.price_change_percentage_24h < 0))).reverse)

/-- One displayed mover.  The source formats `change` as the string
`"+X.X%"` / `"-X.X%"` via `toFixed(1)`; the embedding keeps the numeric
value that string renders. -/
structure TopMover where
  symbol : String
  name : String
  change : Rat
  price : Rat
deriving DecidableEq, Repr

/-- The display projection of one coin inside `getTopMovers`. -/
def toTopMover (c : Coin) : TopMover :=
  ⟨String.mk (upperData c.symbol), c.name, c.price_change_percentage_24h,
    c.current_price⟩

/-- `getTopMovers(coins)` of prices.ts lines 220-247. -/
def getTopMovers (coins : List Coin) : List TopMover × List TopMover :=
  let sel := getTopMoversCoins coins
  (sel.1.map toTopMover, sel.2.map toTopMover)

/-- Stablecoin denylist of the prices route (src/unnamed/part_006 lines 5-10). -/
def STABLECOIN_IDS : List String :=
  ["tether", "usd-coin", "dai", "trueusd", "paxos-standard", "binance-usd",
   "frax", "usdd", "gemini-dollar", "pax-dollar", "first-digital-usd",
   "paypal-usd", "ethena-usde", "usual-usd", "fdusd", "ondo-us-dollar-yield",
   "binance-bridged-usdc-bnb-smart-chain", "usds", "usdc-bridged-base",
   "usyc", "bfusd"]

/-- Wrapped / liquid-staking-token denylist (part_006 lines 13-19). -/
def WRAPPED_TOKEN_IDS : List String :=
  ["wrapped-bitcoin", "wrapped-steth", "wrapped-eeth", "wrapped-ether",
   "staked-ether", "rocket-pool-eth", "coinbase-wrapped-btc", "cbeth",
   "binance-staked-sol", "marinade-staked-sol", "jito-staked-sol",
   "mantle-staked-ether", "renzo-restaked-eth", "kelp-dao-restaked-eth",
   "lombard-staked-btc", "solv-btc", "msol", "bnsol", "bbsol"]

/-- One coin-selector item (`availableCoins` element). -/
structure SelectorCoin where
  id : String
  symbol : String
  name : String
  image : String
deriving DecidableEq, Repr

/-- The movers tiers of the prices route response. -/
structure MoversTiers where
  top50 : List TopMover × List TopMover
  top100 : List TopMover × List TopMover
  top200 : List TopMover × List TopMover
  top300 : List TopMover × List TopMover
deriving DecidableEq, Repr

/-- The prices route payload fields the claims are about (the
`displayItems` presentation field is omitted). -/
structure PricesResp where
  coins : List Coin
  topMovers : MoversTiers
  availableCoins : List SelectorCoin
deriving DecidableEq, Repr

/-- `GET /api/prices` (src/unnamed/part_006 lines 21-73): select the
requested coins from the top-300 universe, derive the four movers tiers
from the unfiltered universes, and build the selector listing from the
top-300 universe with the two denylists excluded. -/
def pricesGET (selectedCoins : List String) (top100Coins top300Coins : List Coin) :
    PricesResp :=
  let selectedCoinsData : List Coin :=
    if selectedCoins ≠ [] then
      selectedCoins.filterMap (fun i => top300Coins.find? (fun c => c.id == i))
    else
      ["bitcoin", "ethereum", "solana", "binancecoin", "ripple", "hyperliquid"].filterMap
        (fun i => top300Coins.find? (fun c => c.id == i))
  let excludedIds := STABLECOIN_IDS ++ WRAPPED_TOKEN_IDS
  { coins := selectedCoinsData
    topMovers :=
      { top50 := getTopMovers (top300Coins.take 50)
        top100 := getTopMovers top100Coins
        top200 := getTopMovers (top300Coins.take 200)
        top300 := getTopMovers top300Coins }
    availableCoins :=
      (top300Coins.filter (fun c => !excludedIds.contains c.id)).map
        (fun c => ⟨c.id, String.mk (upperData c.symbol), c.name, c.image⟩) }

/-! ## Raw evidence adapter — src/lib/twitter-api.ts -/

/-- A raw post from the social search provider.  `createdAt` is the parsed
Date value in milliseconds; author fields are inlined. -/
structure RawTweet where
  id : String
  text : String
  createdAt : Nat
  likeCount : Nat
  retweetCount : Nat
  viewCount : Nat
  authorUserName : String
  authorName : String
  authorFollowers : Nat
  url : Option String
deriving DecidableEq, Repr

/-- A ranked post as returned by `fetchCryptoTweets`. -/
structure RankedTweet where
  id : String
  text : String
  createdAt : Nat
  likes : Nat
  retweets : Nat
  views : Nat
  username : String
  displayName : String
  followers : Nat
  url : String
  score : Rat
deriving DecidableEq, Repr

/-- 48 hours in milliseconds: the recency cutoff window. -/
def TWEET_WINDOW_MS : Nat := 48 * 60 * 60 * 1000

/-- Deduplicate by tweet id, keeping the first occurrence (the `seen` set
scan of lines 149-154). -/
def dedupeById (seen : List String) : List RawTweet → List RawTweet
  | [] => []
  | t :: ts =>
    if seen.contains t.id then dedupeById seen ts
    else t :: dedupeById (t.id :: seen) ts

/-- The per-tweet filter of lines 157-161: at least 30 characters of text
and posted within the last 48 hours (`tweetDate >= cutoff`, inclusive). -/
def tweetKeep (cutoff : Nat) (t : RawTweet) : Bool :=
  !(t.text.length < 30) && cutoff ≤ t.createdAt

/-- Descending order on the attached score for the scored-pair sort
(`sort((a, b) => b.score - a.score)`, stable). -/
def scoredDesc (a b : RawTweet × Rat) : Prop := b.2 ≤ a.2

instance : DecidableRel scoredDesc := fun a b =>
  inferInstanceAs (Decidable (b.2 ≤ a.2))

instance : IsTotal (RawTweet × Rat) scoredDesc :=
  ⟨fun a b => le_total b.2 a.2⟩

instance : IsTrans (RawTweet × Rat) scoredDesc :=
  ⟨fun _ _ _ hab hbc => le_trans hbc hab⟩

/-- The final display mapping of lines 169-181: truncate the text to 280
characters and fall back to the canonical post URL. -/
def toRankedTweet (p : RawTweet × Rat) : RankedTweet :=
  { id := p.1.id
    text := String.mk (p.1.text.data.take 280)
    createdAt := p.1.createdAt
    likes := p.1.likeCount
    retweets := p.1.retweetCount
    views := p.1.viewCount
    username := p.1.authorUserName
    displayName := p.1.authorName
    followers := p.1.authorFollowers
    url := p.1.url.getD ("https://x.com/" ++ p.1.authorUserName ++ "/status/" ++ p.1.id)
    score := p.2 }

/-- `fetchCryptoTweets()` (lines 127-182).  The source scores with
`Math.log` over floating-point engagement counts; the embedding takes the
scoring function as a parameter, since every claimed property is about the
pipeline around it.  `queryResults` holds the per-query result lists (a
failed or timed-out query already yields `[]` inside `searchTweets`, and
`Promise.allSettled` keeps the query order).  Pipeline, in source order:
merge, dedupe by id, filter (length and recency), score, stable sort
descending, take 15, truncate text. -/
def fetchCryptoTweets (score : RawTweet → Rat) (now : Nat)
    (apiKey : Option String) (queryResults : List (List RawTweet)) :
    List RankedTweet :=
  if strFalsy apiKey then []
  else
    let cutoff := now - TWEET_WINDOW_MS
    let allTweets := queryResults.flatten
    let unique := dedupeById [] allTweets
    let filtered := unique.filter (tweetKeep cutoff)
    let scored := filtered.map (fun t => (t, score t))
    ((List.insertionSort scoredDesc scored).take 15).map toRankedTweet

/-! ## Upstream call outcomes -/

/-- The observable outcome of one `fetch` call: the promise rejected
(`thrown`), or a response arrived with its `ok` flag, status, and the text
content extracted from the provider's payload shape (`none` when the
expected field is missing). -/
inductive FetchOutcome
  | thrown
  | resp (ok : Bool) (status : Nat) (content : Option String)
deriving DecidableEq, Repr

/-- Last index of a character in a list. -/
def lastIdxOf (cs : List Char) (c : Char) : Option Nat :=
  match (cs.reverse).findIdx? (· == c) with
  | none => none
  | some jr => some (cs.length - 1 - jr)

/-- The span from the first occurrence of `copen` to the last occurrence of
`cclose` (exactly the leftmost greedy match of the tolerant-extraction
regexes of grok.ts line 198 and openai.ts line 231); `none` when no such
span exists. -/
def extractSpan (copen cclose : Char) (s : String) : Option String :=
  let cs := s.data
  match cs.findIdx? (· == copen), lastIdxOf cs cclose with
  | some i, some j =>
    if i < j then some (String.mk ((cs.drop i).take (j + 1 - i))) else none
  | some _, none => none
  | none, _ => none

/-- The opening brace character (written by code point to keep braces out
of the source text). -/
def braceOpen : Char := Char.ofNat 123

/-- The closing brace character. -/
def braceClose : Char := Char.ofNat 125

/-! ## Social intelligence adapter — src/lib/grok.ts lines 23-244 -/

/-- A claim with an optional citation URL (`SourcedClaim`). -/
structure SourcedClaim where
  claim : String
  sourceUrl : Option String
deriving DecidableEq, Repr

/-- `ThemeInsight` after normalization. -/
structure ThemeInsight where
  theme : String
  insight : String
  evidence : List SourcedClaim
  implication : Sentiment
deriving DecidableEq, Repr

/-- The adapter result (`GrokCryptoIntel`; the `searchTimestamp` field is
just the call time and is not modelled). -/
structure GrokIntel where
  themes : List ThemeInsight
  priceDrivers : List SourcedClaim
  breakingNews : List SourcedClaim
  sentiment : String
deriving DecidableEq, Repr

/-- The all-empty zero-value result the adapter degrades to. -/
def emptyIntel : GrokIntel := ⟨[], [], [], ""⟩

/-- A parsed claim item, which may arrive as a plain string or an object. -/
inductive ClaimRaw
  | str (s : String)
  | obj (c : SourcedClaim)
deriving DecidableEq, Repr

/-- A parsed theme object with every field possibly missing. -/
structure ThemeRaw where
  theme : Option String
  insight : Option String
  evidence : Option (List ClaimRaw)
  implication : Option Sentiment
deriving DecidableEq, Repr

/-- The shape of a successfully `JSON.parse`d grok payload. -/
structure GrokParsed where
  themes : Option (List ThemeRaw)
  priceDrivers : Option (List ClaimRaw)
  breakingNews : Option (List ClaimRaw)
  sentiment : Option String
deriving DecidableEq, Repr

/-- JS `x || d` for string fields (empty string is falsy). -/
def jsOr (o : Option String) (d : String) : String :=
  match o with
  | none => d
  | some s => if s == "" then d else s

/-- `normalizeClaims` (lines 207-214): strings become claims without a
source URL; `(items || [])` makes a missing list empty. -/
def normalizeClaims (items : Option (List ClaimRaw)) : List SourcedClaim :=
  (items.getD []).map fun it =>
    match it with
    | ClaimRaw.str s => ⟨s, none⟩
    | ClaimRaw.obj c => c

/-- `normalizeThemes` (lines 217-225). -/
def normalizeThemes (themes : Option (List ThemeRaw)) : List ThemeInsight :=
  (themes.getD []).map fun t =>
    { theme := jsOr t.theme "GENERAL"
      insight := t.insight.getD ""
      evidence := normalizeClaims (some (t.evidence.getD []))
      implication := t.implication.getD Sentiment.neutral }

/-- The try-block of `fetchCryptoIntelFromGrok` (lines 161-233): any thrown
step is an `error`.  `jsonParse` stands for `JSON.parse` restricted to the
payload shape; `none` models a parse exception. -/
def fetchCryptoIntelTry (outcome : FetchOutcome)
    (jsonParse : String → Option GrokParsed) : Except String GrokIntel :=
  match outcome with
  | FetchOutcome.thrown => Except.error "fetch failed"
  | FetchOutcome.resp ok status content =>
    if !ok then Except.error ("Grok API error: " ++ toString status)
    else if strFalsy content then Except.error "No content in Grok response"
    else
      match extractSpan braceOpen braceClose (content.getD "") with
      | none => Except.error "Failed to parse Grok response"
      | some span =>
        match jsonParse span with
        | none => Except.error "JSON.parse failed"
        | some p =>
          Except.ok
            { themes := normalizeThemes p.themes
              priceDrivers := normalizeClaims p.priceDrivers
              breakingNews := normalizeClaims p.breakingNews
              sentiment := p.sentiment.getD "" }

/-- `fetchCryptoIntelFromGrok()` (lines 23-244): a missing key short-circuits
to the empty result, and the catch block maps every failure of the try-block
to the empty result — the adapter never throws past its boundary. -/
def fetchCryptoIntelFromGrok (apiKey : Option String) (outcome : FetchOutcome)
    (jsonParse : String → Option GrokParsed) : GrokIntel :=
  if strFalsy apiKey then emptyIntel
  else
    match fetchCryptoIntelTry outcome jsonParse with
    | Except.ok intel => intel
    | Except.error _ => emptyIntel

/-! ## Synthesis engine — src/lib/openai.ts lines 42-243 -/

/-- One displayed mover of the briefing (`symbol` uppercased; the source
formats `change` through `toFixed(1)` into a signed percent string, the
embedding keeps the numeric value). -/
structure BriefMover where
  symbol : String
  change : Rat
deriving DecidableEq, Repr

/-- `WhatsUpData`: the briefing payload. -/
structure WhatsUpData where
  bullets : List String
  sentiment : Sentiment
  gainers : List BriefMover
  losers : List BriefMover
deriving DecidableEq, Repr

/-- The typed hard failures of `generateWhatsUp`. -/
inductive GenError
  | configMissing
  | apiError (status : Nat)
  | invalidResponse
  | parseFailed
deriving DecidableEq, Repr

/-- The descending sort of line 56 reused for the 3-element movers. -/
def generateMovers (coins : List Coin) : List BriefMover × List BriefMover :=
  let sorted := sortByChangeDesc coins
  ((sorted.filter (fun c => 0 < c.price_change_percentage_24h)).take 3
      |>.map (fun c => ⟨String.mk (upperData c.symbol), c.price_change_percentage_24h⟩),
   (takeLast 3 (sorted.filter (fun c => c.price_change_percentage_24h < 0))).reverse
      |>.map (fun c => ⟨String.mk (upperData c.symbol), c.price_change_percentage_24h⟩))

/-- The mean 24h change of lines 94-99; an empty coin list divides by zero,
which in the source yields NaN and falls through both comparisons to
neutral, exactly as rational division by zero yields 0 here. -/
def computeFallbackSentiment (coins : List Coin) : Sentiment :=
  let avgChange :=
    (coins.map (fun c => c.price_change_percentage_24h)).sum / (coins.length : Rat)
  if 2 < avgChange then Sentiment.bullish
  else if avgChange < -2 then Sentiment.bearish
  else Sentiment.neutral

/-- The opening bracket character. -/
def bracketOpen : Char := Char.ofNat 91

/-- The closing bracket character. -/
def bracketClose : Char := Char.ofNat 93

/-- `generateWhatsUp()` (openai.ts lines 42-243).  The required-path
synthesis: a missing key, a non-2xx upstream response, a missing text block,
and an unextractable or unparsable JSON array are all hard errors.  `coins`
is the already-fetched price data (its own fetch failure propagates outside
this function); the prompt strings built from it do not affect the result
and are not modelled.  `parseArr` stands for `JSON.parse` on the extracted
array span. -/
def generateWhatsUp (apiKey : Option String) (coins : List Coin)
    (outcome : FetchOutcome) (parseArr : String → Option (List String)) :
    Except GenError WhatsUpData :=
  if strFalsy apiKey then Except.error GenError.configMissing
  else
    match outcome with
    | FetchOutcome.thrown => Except.error GenError.invalidResponse
    | FetchOutcome.resp ok status content =>
      if !ok then Except.error (GenError.apiError status)
      else if strFalsy content then Except.error GenError.invalidResponse
      else
        match extractSpan bracketOpen bracketClose (content.getD "") with
        | none => Except.error GenError.parseFailed
        | some span =>
          match parseArr span with
          | none => Except.error GenError.parseFailed
          | some bullets =>
            let movers := generateMovers coins
            Except.ok
              { bullets := bullets
                sentiment := computeFallbackSentiment coins
                gainers := movers.1
                losers := movers.2 }

/-! ## Transport retry helper — src/lib/claude.ts lines 9-35 -/

/-- The two fields of a fetch Response the helper inspects. -/
structure RetryResp where
  ok : Bool
  status : Nat
deriving DecidableEq, Repr

/-- `MAX_RETRIES`. -/
def MAX_RETRIES : Nat := 3

/-- `INITIAL_DELAY_MS`. -/
def INITIAL_DELAY_MS : Nat := 2000

/-- A response is retried exactly when it is not ok and the status is 429
or 529 (the negation of the immediate-return test of line 20). -/
def retryable (r : RetryResp) : Bool :=
  !r.ok && (r.status == 429 || r.status == 529)

/-- The loop body of `fetchWithRetry` from a given attempt index; `fuel` is
the number of loop iterations left (`retries + 1 - attempt`).  Returns the
outcome (the thrown "API overloaded" error carries the last status) and the
list of backoff delays slept, in order. -/
def retryLoop (responses : Nat → RetryResp) (retries : Nat) :
    Nat → Nat → (Except (Option Nat) RetryResp) × List Nat
  | _, 0 => (Except.error none, [])
  | attempt, fuel + 1 =>
    let r := responses attempt
    if r.ok || (!(r.status == 429) && !(r.status == 529)) then (Except.ok r, [])
    else
      let rest := retryLoop responses retries (attempt + 1) fuel
      let tail := match rest.1 with
        | Except.error none => Except.error (some r.status)
        | other => other
      if attempt < retries then
        (tail, INITIAL_DELAY_MS * 2 ^ attempt :: rest.2)
      else (tail, rest.2)

/-- `fetchWithRetry(url, options, retries)` over the sequence of responses
the repeated `fetch` would produce.  `Except.error (some s)` is the thrown
`API overloaded (s)` error after exhausting retries; `Except.error none`
(the `Max retries exceeded` fallback) is unreachable for any `retries`. -/
def fetchWithRetry (responses : Nat → RetryResp)
    (retries : Nat := MAX_RETRIES) : (Except (Option Nat) RetryResp) × List Nat :=
  retryLoop responses retries 0 (retries + 1)

/-! ## Follow-up route — src/app/api/whatsup/followup/route.ts lines 24-137 -/

/-- The parsed follow-up request body fields the handler tests:
`question` (falsy when missing or empty) and whether `context` is present.
The bullets, history and focus index only shape the prompt. -/
structure FollowupBody where
  question : Option String
  hasContext : Bool
deriving DecidableEq, Repr

/-- The ambient Cost Governor state at the time of the request.  The
follow-up handler receives it here to make gating statable; the source
handler never reads it. -/
structure GovState where
  rate : RateState
  budget : BudgetState

/-- The observable responses of the follow-up POST handler. -/
inductive FollowupResp
  | configError
  | badRequest
  | answered (text : String)
  | failed
deriving DecidableEq, Repr

/-- `POST /api/whatsup/followup`: missing key is a 500 before the try block;
an unparsable body (`body = none`) throws into the catch (500); missing
question or context is a 400; otherwise the Claude call is issued and any
upstream failure becomes the catch-all 500.  The second component records
whether the upstream LLM call was issued. -/
def followupPOST (_gov : GovState) (apiKey : Option String)
    (body : Option FollowupBody) (outcome : FetchOutcome) :
    FollowupResp × Bool :=
  if strFalsy apiKey then (FollowupResp.configError, false)
  else
    match body with
    | none => (FollowupResp.failed, false)
    | some b =>
      if strFalsy b.question || !b.hasContext then (FollowupResp.badRequest, false)
      else
        match outcome with
        | FetchOutcome.thrown => (FollowupResp.failed, true)
        | FetchOutcome.resp ok _ content =>
          if !ok then (FollowupResp.failed, true)
          else if strFalsy content then (FollowupResp.failed, true)
          else (FollowupResp.answered (content.getD ""), true)

/-! ## Helper lemmas -/

theorem startsWithL_iff (h n : List Char) :
    startsWithL h n = true ↔ n <+: h := by
  induction n generalizing h with
  | nil => simp [startsWithL]
  | cons d ds ih =>
    cases h with
    | nil => simp [startsWithL]
    | cons c cs =>
      simp only [startsWithL, Bool.and_eq_true, beq_iff_eq, ih cs,
        List.cons_prefix_cons]
      exact ⟨fun ⟨h1, h2⟩ => ⟨h1.symm, h2⟩, fun ⟨h1, h2⟩ => ⟨h1.symm, h2⟩⟩

theorem containsSub_iff (h n : List Char) :
    containsSub h n = true ↔ n <:+: h := by
  induction h with
  | nil =>
    simp [containsSub, List.isEmpty_iff, List.infix_nil]
  | cons c cs ih =>
    simp only [containsSub, Bool.or_eq_true, startsWithL_iff, ih,
      List.infix_cons_iff]

/-- Containment is transitive along substring containment of the needle. -/
theorem containsSub_of_super {h n m : List Char}
    (hnm : containsSub n m = true) (hh : containsSub h n = true) :
    containsSub h m = true := by
  rw [containsSub_iff] at *
  exact hnm.trans hh

/-- If the haystack avoids `m` and `n` contains `m`, the haystack avoids `n`. -/
theorem includes_false_of_super (h : List Char) (n m : String)
    (hnm : containsSub n.data m.data = true)
    (hm : includesL h m = false) : includesL h n = false := by
  cases hx : includesL h n with
  | false => rfl
  | true =>
    have hmt : containsSub h m.data = true := containsSub_of_super hnm hx
    rw [includesL] at hm
    rw [hmt] at hm
    exact Bool.noConfusion hm

/-! ## C2 — cache freshness and the expiry boundary -/

/-- C2: `setCachedWhatsUp` stores the briefing with
`expiresAt = timestamp + 24h` in the memory tier (and in the file tier when
the durable write succeeds), and `getCachedWhatsUp` serves an entry iff
`now < expiresAt`, strictly, at the memory tier, at the file tier, and for
the entry just stored. -/
theorem cache_expiry_boundary (α : Type) (d : α) (t : Nat) (w : Bool)
    (s : CacheState α) :
    ((setCachedWhatsUp t d w s).memory = some ⟨d, t, t + CACHE_DURATION_MS⟩) ∧
    (w = true →
      (setCachedWhatsUp t d w s).file = some ⟨d, t, t + CACHE_DURATION_MS⟩) ∧
    (∀ (c : CachedEntry α) (now : Nat),
      (getCachedWhatsUp now (CacheState.mk (some c) none)).1 =
        if now < c.expiresAt then some c else none) ∧
    (∀ (c : CachedEntry α) (now : Nat),
      (getCachedWhatsUp now (CacheState.mk none (some c))).1 =
        if now < c.expiresAt then some c else none) ∧
    (∀ now : Nat,
      (getCachedWhatsUp now (setCachedWhatsUp t d true s)).1 =
        if now < t + CACHE_DURATION_MS then
          some ⟨d, t, t + CACHE_DURATION_MS⟩ else none) := by
  refine ⟨rfl, fun hw => by simp [setCachedWhatsUp, hw], ?_, ?_, ?_⟩
  · intro c now
    simp only [getCachedWhatsUp, readFileCache]
    split <;> simp
  · intro c now
    simp only [getCachedWhatsUp, readFileCache]
    split <;> simp
  · intro now
    simp only [setCachedWhatsUp, getCachedWhatsUp, readFileCache]
    split
    · simp
    · rename_i hlt
      simp [hlt]

/-- Witness for C2 at the 24h boundary: an entry stored at time 0 is served
at `T - 1` and absent at `T` and `T + 1`, where `T = 86400000`. -/
theorem cache_expiry_boundary_witness :
    (true = true →
      (setCachedWhatsUp 0 (37 : Nat) true ⟨none, none⟩).file =
        some ⟨37, 0, 0 + CACHE_DURATION_MS⟩) ∧
    ((getCachedWhatsUp 86399999 (setCachedWhatsUp 0 (37 : Nat) true ⟨none, none⟩)).1 =
      some ⟨37, 0, 86400000⟩) ∧
    ((getCachedWhatsUp 86400000 (setCachedWhatsUp 0 (37 : Nat) true ⟨none, none⟩)).1 =
      none) ∧
    ((getCachedWhatsUp 86400001 (setCachedWhatsUp 0 (37 : Nat) true ⟨none, none⟩)).1 =
      none) := by
  have h := cache_expiry_boundary Nat 37 0 true ⟨none, none⟩
  refine ⟨h.2.1, ?_, ?_, ?_⟩
  · have := h.2.2.2.2 86399999
    simpa using this
  · have := h.2.2.2.2 86400000
    simpa using this
  · have := h.2.2.2.2 86400001
    simpa using this

/-! ## C3 — sentiment re-derivation precedence -/

/-- C3: a conclusion containing "leaning bearish" is displayed as bearish
for every fallback sentiment (in particular a raw "neutral" field), and the
negation guard makes the "not bearish, leaning bullish," conclusion display
as bullish. -/
theorem sentiment_rederivation_precedence :
    (∀ (c : String) (f : Sentiment),
      includesL (lowerData c) "leaning bearish" = true →
      deriveSentimentFromConclusion (some c) f = Sentiment.bearish) ∧
    (∀ f : Sentiment,
      deriveSentimentFromConclusion
        (some "Market is not bearish, leaning bullish, watch BTC levels") f =
          Sentiment.bullish) := by
  constructor
  · intro c f hlb
    rcases eq_or_ne c "" with rfl | hne
    · exact absurd hlb (by decide)
    · simp [deriveSentimentFromConclusion, strFalsy, hne, hlb]
  · intro f
    cases f <;> decide

/-- Witness for C3: both hypotheses discharged at concrete conclusions. -/
theorem sentiment_rederivation_precedence_witness :
    includesL (lowerData "Leaning bearish into the weekend") "leaning bearish" =
      true ∧
    deriveSentimentFromConclusion (some "Leaning bearish into the weekend")
      Sentiment.neutral = Sentiment.bearish ∧
    deriveSentimentFromConclusion
      (some "Market is not bearish, leaning bullish, watch BTC levels")
      Sentiment.neutral = Sentiment.bullish :=
  ⟨by decide,
   sentiment_rederivation_precedence.1 "Leaning bearish into the weekend"
     Sentiment.neutral (by decide),
   sentiment_rederivation_precedence.2 Sentiment.neutral⟩

/-! ## C10 — neutral default and when the fallback is used -/

/-- C10: a non-empty conclusion containing (case-insensitively) neither
"bullish" nor "bearish" derives to neutral whatever the fallback is; the
fallback is returned exactly when the conclusion is undefined or empty, and
for any non-empty conclusion the result ignores the fallback entirely. -/
theorem sentiment_neutral_default :
    (∀ f : Sentiment, deriveSentimentFromConclusion none f = f) ∧
    (∀ f : Sentiment, deriveSentimentFromConclusion (some "") f = f) ∧
    (∀ (c : String) (f : Sentiment), c ≠ "" →
      includesL (lowerData c) "bullish" = false →
      includesL (lowerData c) "bearish" = false →
      deriveSentimentFromConclusion (some c) f = Sentiment.neutral) ∧
    (∀ (c : String) (f1 f2 : Sentiment), c ≠ "" →
      deriveSentimentFromConclusion (some c) f1 =
        deriveSentimentFromConclusion (some c) f2) := by
  refine ⟨fun f => rfl, fun f => rfl, ?_, ?_⟩
  · intro c f hne hbull hbear
    have b1 := includes_false_of_super (lowerData c) "leaning bearish" "bearish"
      (by decide) hbear
    have b2 := includes_false_of_super (lowerData c) "bearish short" "bearish"
      (by decide) hbear
    have b3 := includes_false_of_super (lowerData c) "bearish medium" "bearish"
      (by decide) hbear
    have b4 := includes_false_of_super (lowerData c) "bearish long" "bearish"
      (by decide) hbear
    have b5 := includes_false_of_super (lowerData c) "strongly bearish" "bearish"
      (by decide) hbear
    have u1 := includes_false_of_super (lowerData c) "leaning bullish" "bullish"
      (by decide) hbull
    have u2 := includes_false_of_super (lowerData c) "bullish short" "bullish"
      (by decide) hbull
    have u3 := includes_false_of_super (lowerData c) "bullish medium" "bullish"
      (by decide) hbull
    have u4 := includes_false_of_super (lowerData c) "bullish long" "bullish"
      (by decide) hbull
    have u5 := includes_false_of_super (lowerData c) "strongly bullish" "bullish"
      (by decide) hbull
    simp [deriveSentimentFromConclusion, strFalsy, hne, b1, b2, b3, b4, b5,
      u1, u2, u3, u4, u5, hbull, hbear]
  · intro c f1 f2 hne
    simp only [deriveSentimentFromConclusion, strFalsy, Option.getD_some]
    have : (c == "") = false := by simpa using hne
    rw [this]
    simp

/-- Witness for C10 at a concrete neutral conclusion and at the empty and
missing conclusions. -/
theorem sentiment_neutral_default_witness :
    deriveSentimentFromConclusion none Sentiment.bullish = Sentiment.bullish ∧
    deriveSentimentFromConclusion (some "") Sentiment.bearish =
      Sentiment.bearish ∧
    deriveSentimentFromConclusion (some "Sideways chop, no clear catalyst")
      Sentiment.bullish = Sentiment.neutral ∧
    deriveSentimentFromConclusion (some "Sideways chop, no clear catalyst")
      Sentiment.bullish =
      deriveSentimentFromConclusion (some "Sideways chop, no clear catalyst")
        Sentiment.bearish :=
  ⟨sentiment_neutral_default.1 Sentiment.bullish,
   sentiment_neutral_default.2.1 Sentiment.bearish,
   sentiment_neutral_default.2.2.1 "Sideways chop, no clear catalyst"
     Sentiment.bullish (by decide) (by decide) (by decide),
   sentiment_neutral_default.2.2.2 "Sideways chop, no clear catalyst"
     Sentiment.bullish Sentiment.bearish (by decide)⟩

/-! ## C8 — top movers ordering -/

/-- C8: `getTopMovers` selects the gainers as the first five positive-change
coins of the descending 24h-change sort and the losers as the reversed last
five negative-change coins; consequently both lists hold at most five coins
of the input, gainers are descending, positive and leading, and losers are
ascending (most negative first) and negative. -/
theorem top_movers_order (coins : List Coin) :
    (getTopMoversCoins coins).1 =
      ((sortByChangeDesc coins).filter
        (fun c => 0 < c.price_change_percentage_24h)).take 5 ∧
    (getTopMoversCoins coins).2 =
      (takeLast 5 ((sortByChangeDesc coins).filter
        (fun c => c.price_change_percentage_24h < 0))).reverse ∧
    (getTopMoversCoins coins).1.length ≤ 5 ∧
    (getTopMoversCoins coins).2.length ≤ 5 ∧
    (∀ c ∈ (getTopMoversCoins coins).1,
      c ∈ coins ∧ 0 < c.price_change_percentage_24h) ∧
    (∀ c ∈ (getTopMoversCoins coins).2,
      c ∈ coins ∧ c.price_change_percentage_24h < 0) ∧
    (getTopMoversCoins coins).1.Sorted
      (fun a b => b.price_change_percentage_24h ≤ a.price_change_percentage_24h) ∧
    (getTopMoversCoins coins).2.Sorted
      (fun a b => a.price_change_percentage_24h ≤ b.price_change_percentage_24h) ∧
    (getTopMovers coins).1 = (getTopMoversCoins coins).1.map toTopMover ∧
    (getTopMovers coins).2 = (getTopMoversCoins coins).2.map toTopMover := by
  have hsorted : (sortByChangeDesc coins).Sorted changeDesc :=
    List.sorted_insertionSort changeDesc coins
  have hmemsort : ∀ c ∈ sortByChangeDesc coins, c ∈ coins := fun c hc =>
    (List.perm_insertionSort changeDesc coins).subset hc
  have hgain : (getTopMoversCoins coins).1 =
      ((sortByChangeDesc coins).filter
        (fun c => 0 < c.price_change_percentage_24h)).take 5 := rfl
  have hlose : (getTopMoversCoins coins).2 =
      (takeLast 5 ((sortByChangeDesc coins).filter
        (fun c => c.price_change_percentage_24h < 0))).reverse := rfl
  refine ⟨hgain, hlose, ?_, ?_, ?_, ?_, ?_, ?_, rfl, rfl⟩
  · rw [hgain]
    exact (List.length_take 5 _).le.trans (min_le_left _ _)
  · rw [hlose, List.length_reverse]
    unfold takeLast
    rw [List.length_drop]
    omega
  · intro c hc
    rw [hgain] at hc
    have hf := (List.take_sublist 5 _).subset hc
    refine ⟨hmemsort c (List.filter_sublist _ |>.subset hf), ?_⟩
    have := List.of_mem_filter hf
    simpa using this
  · intro c hc
    rw [hlose, List.mem_reverse] at hc
    have hf : c ∈ (sortByChangeDesc coins).filter
        (fun c => c.price_change_percentage_24h < 0) :=
      (List.drop_sublist _ _).subset hc
    refine ⟨hmemsort c (List.filter_sublist _ |>.subset hf), ?_⟩
    have := List.of_mem_filter hf
    simpa using this
  · rw [hgain]
    exact ((hsorted.sublist (List.filter_sublist _)).sublist
      (List.take_sublist 5 _))
  · rw [hlose]
    rw [List.Sorted, List.pairwise_reverse]
    exact (hsorted.sublist (List.filter_sublist _)).sublist (List.drop_sublist _ _)

/-- Witness for C8 at a concrete universe: the first gainer is positive and
a member, the first loser is negative and a member. -/
theorem top_movers_order_witness :
    ((⟨"tether", "usdt", "Tether", "", 1, 5⟩ : Coin) ∈
      [(⟨"dogecoin", "doge", "Dogecoin", "", 1, -3⟩ : Coin),
       ⟨"tether", "usdt", "Tether", "", 1, 5⟩,
       ⟨"bitcoin", "btc", "Bitcoin", "", 90000, 1⟩] ∧
      (0 : Rat) < 5) ∧
    ((⟨"dogecoin", "doge", "Dogecoin", "", 1, -3⟩ : Coin) ∈
      [(⟨"dogecoin", "doge", "Dogecoin", "", 1, -3⟩ : Coin),
       ⟨"tether", "usdt", "Tether", "", 1, 5⟩,
       ⟨"bitcoin", "btc", "Bitcoin", "", 90000, 1⟩] ∧
      ((-3 : Rat)) < 0) :=
  ⟨(top_movers_order
      [⟨"dogecoin", "doge", "Dogecoin", "", 1, -3⟩,
       ⟨"tether", "usdt", "Tether", "", 1, 5⟩,
       ⟨"bitcoin", "btc", "Bitcoin", "", 90000, 1⟩]).2.2.2.2.1
      ⟨"tether", "usdt", "Tether", "", 1, 5⟩ (by decide),
   (top_movers_order
      [⟨"dogecoin", "doge", "Dogecoin", "", 1, -3⟩,
       ⟨"tether", "usdt", "Tether", "", 1, 5⟩,
       ⟨"bitcoin", "btc", "Bitcoin", "", 90000, 1⟩]).2.2.2.2.2.1
      ⟨"dogecoin", "doge", "Dogecoin", "", 1, -3⟩ (by decide)⟩

/-! ## C4 — denylist exclusion: refuted for top movers, holds for the
coin-selector listing -/

/-- C4 counterexample: with a top-100 universe containing tether at +5%,
the prices route's derived top-movers output contains the denylisted coin —
the route applies the denylists only to `availableCoins`, never to the
movers derivation. -/
theorem denylist_exclusion_counterexample :
    "tether" ∈ STABLECOIN_IDS ∧
    (⟨"tether", "usdt", "Tether", "", 1, 5⟩ : Coin) ∈
      (getTopMoversCoins [⟨"tether", "usdt", "Tether", "", 1, 5⟩]).1 ∧
    (pricesGET [] [⟨"tether", "usdt", "Tether", "", 1, 5⟩] []).topMovers.top100.1 =
      [⟨"USDT", "Tether", 5, 1⟩] := by
  refine ⟨by decide, by decide, by decide⟩

/-- C4 amended: no denylisted coin ever appears in the coin-selector
listing (`availableCoins`) of the prices route; the top-movers output is
derived from the unfiltered universes and is not covered by the denylists. -/
theorem selector_denylist_exclusion (sel : List String)
    (top100 top300 : List Coin) :
    ∀ c ∈ (pricesGET sel top100 top300).availableCoins,
      c.id ∉ STABLECOIN_IDS ∧ c.id ∉ WRAPPED_TOKEN_IDS := by
  intro c hc
  have hmap : (pricesGET sel top100 top300).availableCoins =
      (top300.filter
        (fun x => !(STABLECOIN_IDS ++ WRAPPED_TOKEN_IDS).contains x.id)).map
        (fun x => ⟨x.id, String.mk (upperData x.symbol), x.name, x.image⟩) := rfl
  rw [hmap, List.mem_map] at hc
  obtain ⟨x, hx, rfl⟩ := hc
  have hflt := List.of_mem_filter hx
  have : x.id ∉ STABLECOIN_IDS ++ WRAPPED_TOKEN_IDS := by
    intro hmem
    have hel : (STABLECOIN_IDS ++ WRAPPED_TOKEN_IDS).contains x.id = true :=
      List.elem_eq_true_of_mem hmem
    rw [List.contains] at hel
    simp only [hel, Bool.not_true] at hflt
    exact Bool.noConfusion hflt
  rw [List.mem_append] at this
  push_neg at this
  exact this

/-- Witness for C4's amended theorem: in a universe of tether and bitcoin,
the selector lists only bitcoin, and that entry is on neither denylist. -/
theorem selector_denylist_exclusion_witness :
    (⟨"bitcoin", "BTC", "Bitcoin", ""⟩ : SelectorCoin) ∈
      (pricesGET [] [] [⟨"tether", "usdt", "Tether", "", 1, 5⟩,
        ⟨"bitcoin", "btc", "Bitcoin", "", 90000, 1⟩]).availableCoins ∧
    "bitcoin" ∉ STABLECOIN_IDS ∧ "bitcoin" ∉ WRAPPED_TOKEN_IDS :=
  ⟨by decide,
   selector_denylist_exclusion [] []
     [⟨"tether", "usdt", "Tether", "", 1, 5⟩,
      ⟨"bitcoin", "btc", "Bitcoin", "", 90000, 1⟩]
     ⟨"bitcoin", "BTC", "Bitcoin", ""⟩ (by decide)⟩

/-! ## C9 — transport retry helper -/

/-- The immediate-return test of claude.ts line 20 is exactly the negation
of `retryable`. -/
theorem notRetryable_cond (r : RetryResp) :
    (r.ok || (!(r.status == 429) && !(r.status == 529))) = !retryable r := by
  unfold retryable
  cases r.ok <;> simp [Bool.not_or]

/-- A non-retryable response is returned at once, with no sleep. -/
theorem retryLoop_not_retryable (responses : Nat → RetryResp)
    (retries attempt fuel : Nat)
    (h : retryable (responses attempt) = false) :
    retryLoop responses retries attempt (fuel + 1) =
      (Except.ok (responses attempt), []) := by
  have hc : ((responses attempt).ok ||
      (!((responses attempt).status == 429) &&
        !((responses attempt).status == 529))) = true := by
    rw [notRetryable_cond, h]
    rfl
  simp [retryLoop, hc]

/-- One retryable iteration: recurse, adjust the pending error to carry the
latest status, and sleep exactly when another attempt remains. -/
theorem retryLoop_step (responses : Nat → RetryResp)
    (retries attempt fuel : Nat)
    (h : retryable (responses attempt) = true) :
    retryLoop responses retries attempt (fuel + 1) =
      (match (retryLoop responses retries (attempt + 1) fuel).1 with
        | Except.error none => Except.error (some (responses attempt).status)
        | other => other,
       if attempt < retries then
         INITIAL_DELAY_MS * 2 ^ attempt ::
           (retryLoop responses retries (attempt + 1) fuel).2
       else (retryLoop responses retries (attempt + 1) fuel).2) := by
  have hc : ((responses attempt).ok ||
      (!((responses attempt).status == 429) &&
        !((responses attempt).status == 529))) = false := by
    rw [notRetryable_cond, h]
    rfl
  rw [retryLoop, hc]
  simp only [Bool.false_eq_true, if_false]
  split <;> simp

/-- If the first `k` responses are retryable and the next is not, the loop
returns that response after `k` exponential sleeps. -/
theorem retryLoop_success (responses : Nat → RetryResp) (retries : Nat) :
    ∀ k attempt, attempt + k ≤ retries →
    (∀ i, i < k → retryable (responses (attempt + i)) = true) →
    retryable (responses (attempt + k)) = false →
    retryLoop responses retries attempt (retries + 1 - attempt) =
      (Except.ok (responses (attempt + k)),
       (List.range k).map (fun i => INITIAL_DELAY_MS * 2 ^ (attempt + i))) := by
  intro k
  induction k with
  | zero =>
    intro attempt hle _ hk
    have hf : retries + 1 - attempt = (retries - attempt) + 1 := by omega
    rw [hf, retryLoop_not_retryable responses retries attempt _ hk]
    simp
  | succ k ih =>
    intro attempt hle hlt hk
    have h0 : retryable (responses attempt) = true := by
      simpa using hlt 0 (Nat.succ_pos k)
    have hf : retries + 1 - attempt = (retries - attempt) + 1 := by omega
    rw [hf, retryLoop_step responses retries attempt _ h0]
    have hidx : attempt + (k + 1) = (attempt + 1) + k := by omega
    have hrec := ih (attempt + 1) (by omega)
      (fun i hi => by
        have := hlt (i + 1) (by omega)
        have hidx2 : attempt + (i + 1) = (attempt + 1) + i := by omega
        rwa [hidx2] at this)
      (by rwa [hidx] at hk)
    have hf2 : retries + 1 - (attempt + 1) = retries - attempt := by omega
    rw [hf2] at hrec
    rw [hrec]
    have hlt2 : attempt < retries := by omega
    rw [if_pos hlt2, hidx]
    refine congrArg _ ?_
    rw [List.range_succ_eq_map, List.map_cons, List.map_map, Nat.add_zero]
    refine congrArg _ ?_
    refine List.map_congr_left ?_
    intro i _
    simp only [Function.comp_apply]
    refine congrArg _ (congrArg _ ?_)
    omega

/-- If every response up to `retries` is retryable, the loop throws the
overloaded error carrying the last status after sleeping for every attempt
but the last. -/
theorem retryLoop_exhaust (responses : Nat → RetryResp) (retries : Nat) :
    ∀ k attempt, attempt + k = retries →
    (∀ i, attempt ≤ i → i ≤ retries → retryable (responses i) = true) →
    retryLoop responses retries attempt (retries + 1 - attempt) =
      (Except.error (some (responses retries).status),
       (List.range k).map (fun i => INITIAL_DELAY_MS * 2 ^ (attempt + i))) := by
  intro k
  induction k with
  | zero =>
    intro attempt heq hall
    have h0 : retryable (responses attempt) = true :=
      hall attempt le_rfl (by omega)
    have hf : retries + 1 - attempt = 0 + 1 := by omega
    rw [hf, retryLoop_step responses retries attempt 0 h0]
    have hz : retryLoop responses retries (attempt + 1) 0 =
        (Except.error none, []) := rfl
    rw [hz]
    have : ¬attempt < retries := by omega
    rw [if_neg this]
    have hres : attempt = retries := by omega
    rw [hres]
    simp
  | succ k ih =>
    intro attempt heq hall
    have h0 : retryable (responses attempt) = true :=
      hall attempt le_rfl (by omega)
    have hf : retries + 1 - attempt = ((retries - attempt - 1) + 1) + 1 := by
      omega
    rw [hf, retryLoop_step responses retries attempt _ h0]
    have hrec := ih (attempt + 1) (by omega)
      (fun i hi hile => hall i (by omega) hile)
    have hf2 : retries + 1 - (attempt + 1) = (retries - attempt - 1) + 1 := by
      omega
    rw [hf2] at hrec
    rw [hrec]
    have hlt2 : attempt < retries := by omega
    rw [if_pos hlt2]
    refine congrArg _ ?_
    rw [List.range_succ_eq_map, List.map_cons, List.map_map, Nat.add_zero]
    refine congrArg _ ?_
    refine List.map_congr_left ?_
    intro i _
    simp only [Function.comp_apply]
    refine congrArg _ (congrArg _ ?_)
    omega

/-- C9: `fetchWithRetry` retries only on status 429 or 529 — the first
non-retryable response (2xx or any other non-2xx) is returned immediately
after exponential delays `INITIAL_DELAY_MS * 2 ^ attempt` for each earlier
retryable response; and when the first `retries + 1` responses are all
retryable it throws the upstream-overloaded error instead of returning a
response, in particular sleeping [2000, 4000, 8000] at the default
`MAX_RETRIES = 3`. -/
theorem fetchWithRetry_behavior :
    (∀ (responses : Nat → RetryResp) (retries k : Nat), k ≤ retries →
      (∀ i, i < k → retryable (responses i) = true) →
      retryable (responses k) = false →
      fetchWithRetry responses retries =
        (Except.ok (responses k),
         (List.range k).map (fun i => INITIAL_DELAY_MS * 2 ^ i))) ∧
    (∀ (responses : Nat → RetryResp) (retries : Nat),
      (∀ i, i ≤ retries → retryable (responses i) = true) →
      fetchWithRetry responses retries =
        (Except.error (some (responses retries).status),
         (List.range retries).map (fun i => INITIAL_DELAY_MS * 2 ^ i))) ∧
    (∀ responses : Nat → RetryResp,
      (∀ i, i ≤ MAX_RETRIES → retryable (responses i) = true) →
      fetchWithRetry responses MAX_RETRIES =
        (Except.error (some (responses MAX_RETRIES).status),
         [2000, 4000, 8000])) := by
  have main1 : ∀ (responses : Nat → RetryResp) (retries k : Nat), k ≤ retries →
      (∀ i, i < k → retryable (responses i) = true) →
      retryable (responses k) = false →
      fetchWithRetry responses retries =
        (Except.ok (responses k),
         (List.range k).map (fun i => INITIAL_DELAY_MS * 2 ^ i)) := by
    intro responses retries k hk hlt hnr
    have := retryLoop_success responses retries k 0 (by omega)
      (fun i hi => by simpa using hlt i hi) (by simpa using hnr)
    rw [fetchWithRetry]
    have hf : retries + 1 - 0 = retries + 1 := by omega
    rw [hf] at this
    rw [this]
    simp
  have main2 : ∀ (responses : Nat → RetryResp) (retries : Nat),
      (∀ i, i ≤ retries → retryable (responses i) = true) →
      fetchWithRetry responses retries =
        (Except.error (some (responses retries).status),
         (List.range retries).map (fun i => INITIAL_DELAY_MS * 2 ^ i)) := by
    intro responses retries hall
    have := retryLoop_exhaust responses retries retries 0 (by omega)
      (fun i _ hile => hall i hile)
    rw [fetchWithRetry]
    have hf : retries + 1 - 0 = retries + 1 := by omega
    rw [hf] at this
    rw [this]
    simp
  refine ⟨main1, main2, ?_⟩
  intro responses hall
  rw [main2 responses MAX_RETRIES hall]
  rfl

/-- Witness for C9: a 500 response is returned at once; a success after two
429s arrives with delays [2000, 4000]; four straight 529s throw the
overloaded error with delays [2000, 4000, 8000]. -/
theorem fetchWithRetry_behavior_witness :
    fetchWithRetry (fun _ => ⟨false, 500⟩) MAX_RETRIES =
      (Except.ok ⟨false, 500⟩, []) ∧
    fetchWithRetry (fun i => if i < 2 then ⟨false, 429⟩ else ⟨true, 200⟩)
        MAX_RETRIES = (Except.ok ⟨true, 200⟩, [2000, 4000]) ∧
    fetchWithRetry (fun _ => ⟨false, 529⟩) MAX_RETRIES =
      (Except.error (some 529), [2000, 4000, 8000]) := by
  refine ⟨?_, ?_, ?_⟩
  · have := fetchWithRetry_behavior.1 (fun _ => ⟨false, 500⟩) MAX_RETRIES 0
      (by decide) (fun i hi => absurd hi (by omega)) (by decide)
    simpa using this
  · have := fetchWithRetry_behavior.1
      (fun i => if i < 2 then ⟨false, 429⟩ else ⟨true, 200⟩) MAX_RETRIES 2
      (by decide) (fun i hi => by interval_cases i <;> decide) (by decide)
    simpa using this
  · have := fetchWithRetry_behavior.2.2 (fun _ => ⟨false, 529⟩)
      (fun _ _ => rfl)
    simpa using this

/-! ## C6 — propagation policy: enrichment degrades, the required path
throws -/

/-- C6: the enrichment adapters never fail past their boundary —
`fetchCryptoIntelFromGrok` returns the all-empty result on a missing key, a
thrown fetch, a non-2xx response, a missing or empty content block, an
unextractable JSON span, or a JSON parse failure, and `fetchCryptoTweets`
returns the empty list on a missing key or when every query failed — while
the required-path `generateWhatsUp` fails hard on a missing key, on any
non-2xx response, and on an unextractable or unparsable body. -/
theorem propagation_policy :
    (∀ (o : FetchOutcome) (p : String → Option GrokParsed),
      fetchCryptoIntelFromGrok none o p = emptyIntel) ∧
    (∀ (k : Option String) (p : String → Option GrokParsed),
      fetchCryptoIntelFromGrok k FetchOutcome.thrown p = emptyIntel) ∧
    (∀ (k : Option String) (st : Nat) (c : Option String)
        (p : String → Option GrokParsed),
      fetchCryptoIntelFromGrok k (FetchOutcome.resp false st c) p = emptyIntel) ∧
    (∀ (k : Option String) (st : Nat) (p : String → Option GrokParsed),
      fetchCryptoIntelFromGrok k (FetchOutcome.resp true st none) p = emptyIntel) ∧
    (∀ (k : Option String) (st : Nat) (c : String)
        (p : String → Option GrokParsed),
      extractSpan braceOpen braceClose c = none →
      fetchCryptoIntelFromGrok k (FetchOutcome.resp true st (some c)) p =
        emptyIntel) ∧
    (∀ (k : Option String) (st : Nat) (c sp : String)
        (p : String → Option GrokParsed),
      extractSpan braceOpen braceClose c = some sp → p sp = none →
      fetchCryptoIntelFromGrok k (FetchOutcome.resp true st (some c)) p =
        emptyIntel) ∧
    (∀ (score : RawTweet → Rat) (now : Nat) (results : List (List RawTweet)),
      fetchCryptoTweets score now none results = []) ∧
    (∀ (score : RawTweet → Rat) (now : Nat) (k : String)
        (results : List (List RawTweet)),
      (∀ r ∈ results, r = []) →
      fetchCryptoTweets score now (some k) results = []) ∧
    (∀ (coins : List Coin) (o : FetchOutcome)
        (pa : String → Option (List String)),
      generateWhatsUp none coins o pa = Except.error GenError.configMissing) ∧
    (∀ (k : String) (coins : List Coin) (st : Nat) (c : Option String)
        (pa : String → Option (List String)), k ≠ "" →
      generateWhatsUp (some k) coins (FetchOutcome.resp false st c) pa =
        Except.error (GenError.apiError st)) ∧
    (∀ (k : String) (coins : List Coin) (st : Nat) (c : String)
        (pa : String → Option (List String)), k ≠ "" → c ≠ "" →
      extractSpan bracketOpen bracketClose c = none →
      generateWhatsUp (some k) coins (FetchOutcome.resp true st (some c)) pa =
        Except.error GenError.parseFailed) ∧
    (∀ (k : String) (coins : List Coin) (st : Nat) (c sp : String)
        (pa : String → Option (List String)), k ≠ "" →
      extractSpan bracketOpen bracketClose c = some sp → pa sp = none →
      generateWhatsUp (some k) coins (FetchOutcome.resp true st (some c)) pa =
        Except.error GenError.parseFailed) := by
  refine ⟨fun o p => rfl, ?_, ?_, ?_, ?_, ?_, fun score now results => rfl,
    ?_, fun coins o pa => rfl, ?_, ?_, ?_⟩
  · intro k p
    cases k with
    | none => rfl
    | some s =>
      by_cases hs : s = "" <;>
        simp [fetchCryptoIntelFromGrok, fetchCryptoIntelTry, strFalsy, hs]
  · intro k st c p
    cases k with
    | none => rfl
    | some s =>
      by_cases hs : s = "" <;>
        simp [fetchCryptoIntelFromGrok, fetchCryptoIntelTry, strFalsy, hs]
  · intro k st p
    cases k with
    | none => rfl
    | some s =>
      by_cases hs : s = "" <;>
        simp [fetchCryptoIntelFromGrok, fetchCryptoIntelTry, strFalsy, hs]
  · intro k st c p hspan
    cases k with
    | none => rfl
    | some s =>
      by_cases hs : s = "" <;>
      by_cases hc : c = "" <;>
        simp [fetchCryptoIntelFromGrok, fetchCryptoIntelTry, strFalsy, hs, hc,
          hspan]
  · intro k st c sp p hspan hp
    cases k with
    | none => rfl
    | some s =>
      have hc : c ≠ "" := by
        intro hc
        rw [hc] at hspan
        exact Option.noConfusion (hspan.symm.trans (by rfl))
      by_cases hs : s = "" <;>
        simp [fetchCryptoIntelFromGrok, fetchCryptoIntelTry, strFalsy, hs, hc,
          hspan, hp]
  · intro score now k results hempty
    have hflat : results.flatten = [] := by
      rw [List.flatten_eq_nil_iff]
      exact hempty
    by_cases hk : k = "" <;>
      simp [fetchCryptoTweets, strFalsy, hk, hflat, dedupeById]
  · intro k coins st c pa hk
    simp [generateWhatsUp, strFalsy, hk]
  · intro k coins st c pa hk hc hspan
    simp [generateWhatsUp, strFalsy, hk, hc, hspan]
  · intro k coins st c sp pa hk hspan hp
    have hc : c ≠ "" := by
      intro hc
      rw [hc] at hspan
      exact Option.noConfusion (hspan.symm.trans (by rfl))
    simp [generateWhatsUp, strFalsy, hk, hc, hspan, hp]

/-- Witness for C6: every hypothesis discharged at concrete inputs — a JSON
span extraction that fails on a braceless body, a parse that always fails,
all-empty query batches, and a concrete non-2xx status. -/
theorem propagation_policy_witness :
    (extractSpan braceOpen braceClose "no json here" = none ∧
      fetchCryptoIntelFromGrok (some "xai-key")
        (FetchOutcome.resp true 200 (some "no json here")) (fun _ => none) =
        emptyIntel) ∧
    (fetchCryptoTweets (fun _ => 1) 1000 (some "tw-key") [[], [], [], []] = []) ∧
    (("anthropic-key" : String) ≠ "" ∧
      generateWhatsUp (some "anthropic-key") [] (FetchOutcome.resp false 529 none)
        (fun _ => none) = Except.error (GenError.apiError 529)) :=
  ⟨⟨by decide,
    propagation_policy.2.2.2.2.1 (some "xai-key") 200 "no json here"
      (fun _ => none) (by decide)⟩,
   propagation_policy.2.2.2.2.2.2.2.1 (fun _ => 1) 1000 "tw-key" [[], [], [], []]
     (by decide),
   ⟨by decide,
    propagation_policy.2.2.2.2.2.2.2.2.2.1 "anthropic-key" [] 529 none
      (fun _ => none) (by decide)⟩⟩

/-! ## C5 — the follow-up endpoint and the Cost Governor -/

/-- C5 (code bug): the follow-up handler never consults the Cost Governor —
its result is identical for any two Governor states, and with the per-client
rate window at its cap (10) and the daily budget at its cap (200) a valid
request still issues the upstream LLM call and returns the answer, where the
repository documentation (FORET.md, "API Cost Protection") states both gates
were applied to this endpoint. -/
theorem followup_no_cost_governor :
    (∀ (g1 g2 : GovState) (k : Option String) (b : Option FollowupBody)
        (o : FetchOutcome), followupPOST g1 k b o = followupPOST g2 k b o) ∧
    followupPOST
        ⟨[("9.9.9.9", ⟨RATE_CAP, 1000000000⟩)], ⟨DAILY_BUDGET_CAP, 1000000000⟩⟩
        (some "key") (some ⟨some "why is BTC down", true⟩)
        (FetchOutcome.resp true 200 (some "an answer")) =
      (FollowupResp.answered "an answer", true) :=
  ⟨fun _ _ _ _ _ => rfl, by decide⟩

/-! ## C7 — ranked-posts pipeline -/

/-- Members of the deduplicated list come from the input and were not
already seen. -/
theorem mem_dedupeById {seen : List String} {ts : List RawTweet} {t : RawTweet}
    (h : t ∈ dedupeById seen ts) : t ∈ ts ∧ seen.contains t.id = false := by
  induction ts generalizing seen with
  | nil => exact absurd h (List.not_mem_nil t)
  | cons x xs ih =>
    rw [dedupeById] at h
    by_cases hx : seen.contains x.id
    · rw [if_pos hx] at h
      have hih := ih h
      exact ⟨List.mem_cons_of_mem x hih.1, hih.2⟩
    · rw [if_neg hx] at h
      rcases List.mem_cons.mp h with rfl | hmem
      · refine ⟨List.mem_cons_self t xs, ?_⟩
        cases hs : seen.contains t.id
        · rfl
        · exact absurd hs hx
      · obtain ⟨h1, h2⟩ := ih hmem
        refine ⟨List.mem_cons_of_mem x h1, ?_⟩
        cases hs : seen.contains t.id
        · rfl
        · exfalso
          simp [List.contains_cons, hs] at h2
          exact h2.2 (List.mem_of_elem_eq_true hs)

/-- The deduplicated list has pairwise-distinct ids. -/
theorem dedupeById_ids_nodup (ts : List RawTweet) (seen : List String) :
    ((dedupeById seen ts).map RawTweet.id).Nodup := by
  induction ts generalizing seen with
  | nil => simp [dedupeById]
  | cons x xs ih =>
    rw [dedupeById]
    by_cases hx : seen.contains x.id
    · rw [if_pos hx]
      exact ih seen
    · rw [if_neg hx]
      rw [List.map_cons, List.nodup_cons]
      refine ⟨?_, ih (x.id :: seen)⟩
      intro hc
      rw [List.mem_map] at hc
      obtain ⟨y, hy, hid⟩ := hc
      have h2 := (mem_dedupeById hy).2
      rw [hid] at h2
      simp [List.contains_cons] at h2

/-- C7: the ranked-posts pipeline applies merge, dedupe-by-id, the length
and recency filter, scoring, the stable descending sort, the cut to 15, and
the 280-character text truncation, in that order; hence the result holds at
most 15 posts with pairwise-distinct ids, sorted descending by score, each
arising from an input post at least 30 characters long posted at or after
the 48-hour cutoff, carrying its truncated text (at most 280 characters)
and its computed score. -/
theorem fetchRankedPosts_pipeline (score : RawTweet → Rat) (now : Nat)
    (k : String) (queryResults : List (List RawTweet))
    (res : List RankedTweet) (hk : k ≠ "")
    (hres : res = fetchCryptoTweets score now (some k) queryResults) :
    res = ((List.insertionSort scoredDesc
        (((dedupeById [] queryResults.flatten).filter
          (tweetKeep (now - TWEET_WINDOW_MS))).map
            (fun t => (t, score t)))).take 15).map toRankedTweet ∧
    res.length ≤ 15 ∧
    (res.map RankedTweet.id).Nodup ∧
    (∀ p ∈ res, ∃ t ∈ queryResults.flatten,
      p.id = t.id ∧ p.text = String.mk (t.text.data.take 280) ∧
      30 ≤ t.text.length ∧ now - TWEET_WINDOW_MS ≤ t.createdAt ∧
      p.score = score t ∧ p.text.length ≤ 280) ∧
    res.Sorted (fun a b => b.score ≤ a.score) := by
  have hpipe : fetchCryptoTweets score now (some k) queryResults =
      ((List.insertionSort scoredDesc
        (((dedupeById [] queryResults.flatten).filter
          (tweetKeep (now - TWEET_WINDOW_MS))).map
            (fun t => (t, score t)))).take 15).map toRankedTweet := by
    simp [fetchCryptoTweets, strFalsy, hk]
  rw [hres, hpipe]
  set filtered := (dedupeById [] queryResults.flatten).filter
    (tweetKeep (now - TWEET_WINDOW_MS)) with hfiltered
  set scored := filtered.map (fun t => (t, score t)) with hscored
  set sorted := List.insertionSort scoredDesc scored with hsorted
  refine ⟨rfl, ?_, ?_, ?_, ?_⟩
  · rw [List.length_map, List.length_take]
    exact min_le_left _ _
  · have hidsfilter : (filtered.map RawTweet.id).Nodup :=
      List.Pairwise.sublist (List.Sublist.map RawTweet.id (List.filter_sublist _))
        (dedupeById_ids_nodup queryResults.flatten [])
    have hids : (scored.map (fun p => p.1.id)).Nodup := by
      rw [hscored, List.map_map]
      exact hidsfilter
    have hperm : (sorted.map (fun p : RawTweet × Rat => p.1.id)).Perm
        (scored.map (fun p : RawTweet × Rat => p.1.id)) :=
      List.Perm.map _ (List.perm_insertionSort scoredDesc scored)
    have hsortedids : (sorted.map (fun p : RawTweet × Rat => p.1.id)).Nodup :=
      hperm.nodup_iff.mpr hids
    have htake : ((sorted.take 15).map (fun p : RawTweet × Rat => p.1.id)).Nodup :=
      List.Pairwise.sublist
        (List.Sublist.map (fun p : RawTweet × Rat => p.1.id)
          (List.take_sublist 15 sorted)) hsortedids
    have heq : (((sorted.take 15).map toRankedTweet).map RankedTweet.id) =
        (sorted.take 15).map (fun p : RawTweet × Rat => p.1.id) := by
      rw [List.map_map]
      rfl
    rw [heq]
    exact htake
  · intro p hp
    rw [List.mem_map] at hp
    obtain ⟨pr, hpr, rfl⟩ := hp
    have hprs : pr ∈ sorted := (List.take_sublist 15 sorted).subset hpr
    have hprsc : pr ∈ scored :=
      (List.perm_insertionSort scoredDesc scored).subset hprs
    rw [hscored, List.mem_map] at hprsc
    obtain ⟨t, htf, rfl⟩ := hprsc
    have hkeep := List.of_mem_filter htf
    have htu : t ∈ dedupeById [] queryResults.flatten :=
      (List.filter_sublist _).subset htf
    have htall : t ∈ queryResults.flatten := (mem_dedupeById htu).1
    rw [tweetKeep, Bool.and_eq_true] at hkeep
    have hlen : 30 ≤ t.text.length := by
      have := hkeep.1
      cases h30 : decide (t.text.length < 30)
      · have := of_decide_eq_false h30
        omega
      · rw [h30] at this
        exact Bool.noConfusion this
    have hrecent : now - TWEET_WINDOW_MS ≤ t.createdAt := by
      have := hkeep.2
      exact of_decide_eq_true this
    refine ⟨t, htall, rfl, rfl, hlen, hrecent, rfl, ?_⟩
    show (String.mk (t.text.data.take 280)).length ≤ 280
    have : (String.mk (t.text.data.take 280)).length =
        (t.text.data.take 280).length := rfl
    rw [this, List.length_take]
    exact min_le_left _ _
  · have hs : sorted.Sorted scoredDesc :=
      List.sorted_insertionSort scoredDesc scored
    have hst : (sorted.take 15).Sorted scoredDesc :=
      hs.sublist (List.take_sublist 15 sorted)
    rw [List.Sorted, List.pairwise_map]
    exact hst

/-- Witness for C7 at a concrete batch: duplicates, a short post and a
stale post are dropped, and the survivor keeps its truncated text. -/
theorem fetchRankedPosts_pipeline_witness :
    ("tw-key" : String) ≠ "" ∧
    (fetchCryptoTweets (fun t => (t.likeCount : Rat)) (172800100) (some "tw-key")
      [[⟨"a", String.mk (List.replicate 35 'x'), 200, 7, 1, 1, "u1", "n1", 0, none⟩,
        ⟨"a", String.mk (List.replicate 35 'x'), 200, 7, 1, 1, "u1", "n1", 0, none⟩],
       [⟨"b", "too short", 200, 9, 1, 1, "u2", "n2", 0, none⟩],
       [⟨"c", String.mk (List.replicate 35 'y'), 50, 9, 1, 1, "u3", "n3", 0, none⟩]]).length ≤
      15 := by
  refine ⟨by decide, ?_⟩
  exact (fetchRankedPosts_pipeline (fun t => (t.likeCount : Rat)) 172800100
    "tw-key"
    [[⟨"a", String.mk (List.replicate 35 'x'), 200, 7, 1, 1, "u1", "n1", 0, none⟩,
      ⟨"a", String.mk (List.replicate 35 'x'), 200, 7, 1, 1, "u1", "n1", 0, none⟩],
     [⟨"b", "too short", 200, 9, 1, 1, "u2", "n2", 0, none⟩],
     [⟨"c", String.mk (List.replicate 35 'y'), 50, 9, 1, 1, "u3", "n3", 0, none⟩]]
    _ (by decide) rfl).2.1

/-! ## C1 — budget gate ordering on the whatsup route -/

/-- The cache-miss tail only ever answers budget-exceeded, server-error or
fresh, and its effect on the budget counter is: none on a rejected budget
check, none on a failed synthesis, and exactly one increment of the checked
counter on a fresh success. -/
theorem whatsupMiss_facts {α : Type} (env : RouteEnv α) (s : RouteState α) :
    ((whatsupMiss env s).1 = RouteResp.budgetExceeded ∨
      (whatsupMiss env s).1 = RouteResp.serverError ∨
      ∃ d, (whatsupMiss env s).1 = RouteResp.fresh d) ∧
    ((whatsupMiss env s).1 = RouteResp.budgetExceeded →
      (whatsupMiss env s).2.budget = (checkDailyBudget env.now s.budget).2 ∧
      (checkDailyBudget env.now s.budget).1 = false) ∧
    ((whatsupMiss env s).1 = RouteResp.serverError →
      (whatsupMiss env s).2.budget = (checkDailyBudget env.now s.budget).2) ∧
    (∀ d, (whatsupMiss env s).1 = RouteResp.fresh d →
      (whatsupMiss env s).2.budget =
        incrementDailyBudget (checkDailyBudget env.now s.budget).2) := by
  by_cases hb : (checkDailyBudget env.now s.budget).1
  · cases hs : env.synth with
    | error e => simp [whatsupMiss, hb, hs]
    | ok d => simp [whatsupMiss, hb, hs]
  · have hb' : (checkDailyBudget env.now s.budget).1 = false := by
      simpa using hb
    simp [whatsupMiss, hb']

/-- Which of the three top-level branches the route takes — rate-limited,
cache hit, or the miss tail — is decided before the budget is ever read:
one branch fits every budget (and, when rate-limited, every cache). -/
theorem whatsupGET_shape {α : Type} (req : WhatsUpReq) (env : RouteEnv α)
    (s : RouteState α) :
    ((checkRateLimit env.now req.ip s.rate).1 = false ∧
      ∀ (b : BudgetState) (ca : CacheState α),
        whatsupGET req env { s with budget := b, cache := ca } =
          (RouteResp.rateLimited (checkRateLimit env.now req.ip s.rate).2.1,
           { s with rate := (checkRateLimit env.now req.ip s.rate).2.2,
                    budget := b, cache := ca })) ∨
    (∃ (c : CachedEntry α) (cds : List (String × Nat)) (cs : CacheState α),
      ∀ b : BudgetState,
        whatsupGET req env { s with budget := b } =
          (RouteResp.cacheHit c,
           { rate := (checkRateLimit env.now req.ip s.rate).2.2,
             cooldowns := cds, budget := b, cache := cs })) ∨
    (∃ (cds : List (String × Nat)) (cs : CacheState α),
      ∀ b : BudgetState,
        whatsupGET req env { s with budget := b } =
          whatsupMiss env
            { rate := (checkRateLimit env.now req.ip s.rate).2.2,
              cooldowns := cds, budget := b, cache := cs }) := by
  by_cases hallow : (checkRateLimit env.now req.ip s.rate).1
  · right
    by_cases hfr : (req.refreshRequested &&
        (isAdminReq req env || cooldownPassed req env s.cooldowns)) = true
    · right
      by_cases hupd : (req.refreshRequested && !isAdminReq req env &&
          cooldownPassed req env s.cooldowns) = true
      · exact ⟨cooldownSet req.ip env.now s.cooldowns, s.cache,
          fun b => by simp [whatsupGET, hallow, hfr, hupd]⟩
      · exact ⟨s.cooldowns, s.cache,
          fun b => by simp [whatsupGET, hallow, hfr, hupd]⟩
    · by_cases hupd : (req.refreshRequested && !isAdminReq req env &&
          cooldownPassed req env s.cooldowns) = true
      · exact absurd hfr (by
          rw [Bool.and_eq_true, Bool.and_eq_true] at hupd
          simp [hupd.1.1, hupd.2])
      · cases hrd : (getCachedWhatsUp env.now s.cache).1 with
        | some c =>
          refine Or.inl ⟨c, s.cooldowns, (getCachedWhatsUp env.now s.cache).2,
            fun b => ?_⟩
          simp [whatsupGET, hallow, hfr, hupd, hrd]
        | none =>
          refine Or.inr ⟨s.cooldowns, (getCachedWhatsUp env.now s.cache).2,
            fun b => ?_⟩
          simp [whatsupGET, hallow, hfr, hupd, hrd]
  · have hallow2 : (checkRateLimit env.now req.ip s.rate).1 = false := by
      simpa using hallow
    exact Or.inl ⟨hallow2, fun b ca => by simp [whatsupGET, hallow2]⟩

/-- C1: on the whatsup route, a cache hit answers without touching the
budget; a rate-limited request touches neither budget, cache nor cooldowns,
and its answer is the same whatever the budget and cache hold (the rate
gate precedes everything); a cache-hit answer is the same whatever the
budget holds (the budget gate lives only on the miss path, after the rate
and cooldown gates); and on the miss path a fresh success increments the
checked budget counter by exactly one, while a failed synthesis or an
exhausted budget leaves the checked counter unchanged. -/
theorem budget_gate_ordering {α : Type} (req : WhatsUpReq) (env : RouteEnv α)
    (s : RouteState α) :
    (∀ c : CachedEntry α, (whatsupGET req env s).1 = RouteResp.cacheHit c →
      (whatsupGET req env s).2.budget = s.budget) ∧
    (∀ rt : Nat, (whatsupGET req env s).1 = RouteResp.rateLimited rt →
      (whatsupGET req env s).2.budget = s.budget ∧
      (whatsupGET req env s).2.cache = s.cache ∧
      (whatsupGET req env s).2.cooldowns = s.cooldowns) ∧
    (∀ d : α, (whatsupGET req env s).1 = RouteResp.fresh d →
      (whatsupGET req env s).2.budget.count =
        (checkDailyBudget env.now s.budget).2.count + 1) ∧
    ((whatsupGET req env s).1 = RouteResp.serverError →
      (whatsupGET req env s).2.budget.count =
        (checkDailyBudget env.now s.budget).2.count) ∧
    ((whatsupGET req env s).1 = RouteResp.budgetExceeded →
      (whatsupGET req env s).2.budget.count =
        (checkDailyBudget env.now s.budget).2.count ∧
      (checkDailyBudget env.now s.budget).1 = false) ∧
    (∀ (b : BudgetState) (c : CachedEntry α),
      (whatsupGET req env s).1 = RouteResp.cacheHit c →
      (whatsupGET req env { s with budget := b }).1 = RouteResp.cacheHit c) ∧
    (∀ (b : BudgetState) (ca : CacheState α) (rt : Nat),
      (whatsupGET req env s).1 = RouteResp.rateLimited rt →
      (whatsupGET req env { s with budget := b, cache := ca }).1 =
        RouteResp.rateLimited rt) := by
  have hself : ({ s with budget := s.budget } : RouteState α) = s := rfl
  have hself2 :
      ({ s with budget := s.budget, cache := s.cache } : RouteState α) = s :=
    rfl
  rcases whatsupGET_shape req env s with ⟨hrl, hall⟩ | ⟨c0, cds, cs, hall⟩ |
    ⟨cds, cs, hall⟩
  · have hcur := hall s.budget s.cache
    rw [hself2] at hcur
    refine ⟨?_, ?_, ?_, ?_, ?_, ?_, ?_⟩
    · intro c hc
      rw [hcur] at hc
      exact absurd hc (by simp)
    · intro rt hrt
      rw [hcur]
      exact ⟨rfl, rfl, rfl⟩
    · intro d hd
      rw [hcur] at hd
      exact absurd hd (by simp)
    · intro hd
      rw [hcur] at hd
      exact absurd hd (by simp)
    · intro hd
      rw [hcur] at hd
      exact absurd hd (by simp)
    · intro b c hc
      rw [hcur] at hc
      exact absurd hc (by simp)
    · intro b ca rt hrt
      rw [hcur] at hrt
      simp only [RouteResp.rateLimited.injEq] at hrt
      rw [hall b ca, ← hrt]
  · have hcur := hall s.budget
    rw [hself] at hcur
    refine ⟨?_, ?_, ?_, ?_, ?_, ?_, ?_⟩
    · intro c hc
      rw [hcur]
    · intro rt hrt
      rw [hcur] at hrt
      exact absurd hrt (by simp)
    · intro d hd
      rw [hcur] at hd
      exact absurd hd (by simp)
    · intro hd
      rw [hcur] at hd
      exact absurd hd (by simp)
    · intro hd
      rw [hcur] at hd
      exact absurd hd (by simp)
    · intro b c hc
      rw [hcur] at hc
      simp only [RouteResp.cacheHit.injEq] at hc
      rw [hall b, ← hc]
    · intro b ca rt hrt
      rw [hcur] at hrt
      exact absurd hrt (by simp)
  · have hcur := hall s.budget
    rw [hself] at hcur
    have hfacts := whatsupMiss_facts env
      { rate := (checkRateLimit env.now req.ip s.rate).2.2,
        cooldowns := cds, budget := s.budget, cache := cs }
    refine ⟨?_, ?_, ?_, ?_, ?_, ?_, ?_⟩
    · intro c hc
      rw [hcur] at hc
      rcases hfacts.1 with h | h | ⟨d, h⟩ <;> rw [h] at hc <;>
        exact absurd hc (by simp)
    · intro rt hrt
      rw [hcur] at hrt
      rcases hfacts.1 with h | h | ⟨d, h⟩ <;> rw [h] at hrt <;>
        exact absurd hrt (by simp)
    · intro d hd
      rw [hcur] at hd ⊢
      rw [hfacts.2.2.2 d hd]
      rfl
    · intro hd
      rw [hcur] at hd ⊢
      rw [hfacts.2.2.1 hd]
    · intro hd
      rw [hcur] at hd ⊢
      refine ⟨?_, (hfacts.2.1 hd).2⟩
      rw [(hfacts.2.1 hd).1]
    · intro b c hc
      rw [hcur] at hc
      rcases hfacts.1 with h | h | ⟨d, h⟩ <;> rw [h] at hc <;>
        exact absurd hc (by simp)
    · intro b ca rt hrt
      rw [hcur] at hrt
      rcases hfacts.1 with h | h | ⟨d, h⟩ <;> rw [h] at hrt <;>
        exact absurd hrt (by simp)

/-- Witness for C1 at concrete inputs: a cache-hit request leaves the
budget counter at 7, and the same request without a cache increments it to
8 after a successful synthesis. -/
theorem budget_gate_ordering_witness :
    ((whatsupGET (α := Nat) ⟨"1.2.3.4", false, none⟩
        ⟨none, 1000, Except.ok 42, true⟩
        ⟨[], [], ⟨7, 86400000⟩, ⟨some ⟨5, 0, 2000⟩, none⟩⟩).1 =
      RouteResp.cacheHit ⟨5, 0, 2000⟩ ∧
      (whatsupGET (α := Nat) ⟨"1.2.3.4", false, none⟩
        ⟨none, 1000, Except.ok 42, true⟩
        ⟨[], [], ⟨7, 86400000⟩, ⟨some ⟨5, 0, 2000⟩, none⟩⟩).2.budget =
        ⟨7, 86400000⟩) ∧
    ((whatsupGET (α := Nat) ⟨"1.2.3.4", false, none⟩
        ⟨none, 1000, Except.ok 42, true⟩
        ⟨[], [], ⟨7, 86400000⟩, ⟨none, none⟩⟩).1 = RouteResp.fresh 42 ∧
      (whatsupGET (α := Nat) ⟨"1.2.3.4", false, none⟩
        ⟨none, 1000, Except.ok 42, true⟩
        ⟨[], [], ⟨7, 86400000⟩, ⟨none, none⟩⟩).2.budget.count =
        (checkDailyBudget 1000 ⟨7, 86400000⟩).2.count + 1) :=
  ⟨⟨by decide,
    (budget_gate_ordering (α := Nat) ⟨"1.2.3.4", false, none⟩
      ⟨none, 1000, Except.ok 42, true⟩
      ⟨[], [], ⟨7, 86400000⟩, ⟨some ⟨5, 0, 2000⟩, none⟩⟩).1 ⟨5, 0, 2000⟩
      (by decide)⟩,
   ⟨by decide,
    (budget_gate_ordering (α := Nat) ⟨"1.2.3.4", false, none⟩
      ⟨none, 1000, Except.ok 42, true⟩
      ⟨[], [], ⟨7, 86400000⟩, ⟨none, none⟩⟩).2.2.1 42 (by decide)⟩⟩

end CryptoWhatsup
